import Mathlib

/-!
Shallow embedding of `src/core/llm/llms/OpenAI.ts` (the OpenAI provider
adapter of the `continue` repository).

The adapter is a single TypeScript class.  Its pure computations (argument
conversion, endpoint resolution, routing, SSE-event filtering) are embedded
as Lean functions.  Network effects are factored out: each streaming call is
modelled as a function of the list of JSON events that the external
`streamSse` primitive would deliver for the response, and the request payload
the call would transmit is returned as data.  JavaScript `undefined`/`null`
field values are modelled with `Option`; JavaScript string truthiness
(`""`, `undefined` and `null` are falsy) is made explicit at each use site.
-/

namespace OpenAIAdapter

/-- A JSON image-url object of a content part: `{url: string}` as it appears
in the provider-agnostic `MessagePart` shape. -/
structure ImageUrl where
  url : String
deriving DecidableEq, Repr

/-- One element of a multi-part message content:
`{type: "text", text} | {type: "imageUrl", imageUrl}`.  The fields that the
variants leave unset are `Option`s, mirroring absent JS object properties. -/
structure ContentPart where
  type : String
  text : Option String
  imageUrl : Option ImageUrl
deriving DecidableEq, Repr

/-- `string | MessagePart[]`, the content of a `ChatMessage`. -/
inductive MessageContent where
  | str : String → MessageContent
  | parts : List ContentPart → MessageContent
deriving DecidableEq, Repr

/-- The provider-agnostic `ChatMessage`: `{role, content}`. -/
structure ChatMessage where
  role : String
  content : MessageContent
deriving DecidableEq, Repr

/-- `CompletionOptions`: the option fields read by `_convertArgs`.  Numeric
sampling parameters are passed through verbatim by the code; they are
modelled as rationals. -/
structure CompletionOptions where
  model : String
  maxTokens : Option Nat
  temperature : Option Rat
  topP : Option Rat
  frequencyPenalty : Option Rat
  presencePenalty : Option Rat
  stop : Option (List String)
deriving DecidableEq, Repr

/-- The wire-side `image_url` object produced by `_convertMessage`:
`{...part.imageUrl, detail: "low"}`.  Both fields are `Option`s because a JS
object spread of `undefined` contributes no properties. -/
structure WireImageUrl where
  url : Option String
  detail : Option String
deriving DecidableEq, Repr

/-- The wire-side part produced by `_convertMessage` for multi-part content:
`{type, text, image_url}`. -/
structure WirePart where
  type : String
  text : Option String
  image_url : Option WireImageUrl
deriving DecidableEq, Repr

/-- Content as it appears in the wire payload: either the original string or
the converted part list. -/
inductive WireContent where
  | str : String → WireContent
  | parts : List WirePart → WireContent
deriving DecidableEq, Repr

/-- A message of the wire payload: `{role, content}` after `_convertMessage`. -/
structure WireMessage where
  role : String
  content : WireContent
deriving DecidableEq, Repr

/-- The payload built by `_convertArgs` (field names as on the wire). -/
structure WirePayload where
  messages : List WireMessage
  model : String
  max_tokens : Option Nat
  temperature : Option Rat
  top_p : Option Rat
  frequency_penalty : Option Rat
  presence_penalty : Option Rat
  stop : Option (List String)
deriving DecidableEq, Repr

/-- The per-part rewrite inside `_convertMessage`:
`{type: part.type, text: part.text, image_url: {...part.imageUrl, detail: "low"}}`.
Spreading an absent `imageUrl` contributes no `url` property, so the result
always carries `image_url` with `detail: "low"` and the original `url` when
one was present. -/
def convertPart (p : ContentPart) : WirePart :=
  { type := p.type
    text := p.text
    image_url := some { url := p.imageUrl.map ImageUrl.url, detail := some "low" } }

/-- `_convertMessage`: string-content messages are returned unchanged;
multi-part content is mapped through `convertPart`. -/
def _convertMessage (message : ChatMessage) : WireMessage :=
  match message.content with
  | .str s => { role := message.role, content := .str s }
  | .parts ps => { role := message.role, content := .parts (ps.map convertPart) }

/-- Whether the second character list starts with the first. -/
def charsStartWith : List Char → List Char → Bool
  | [], _ => true
  | _ :: _, [] => false
  | a :: as, b :: bs => a == b && charsStartWith as bs

/-- Whether the needle occurs contiguously in the haystack (first argument:
haystack). -/
def charsContain : List Char → List Char → Bool
  | [], needle => needle.isEmpty
  | h :: hs, needle => charsStartWith needle (h :: hs) || charsContain hs needle

/-- JS `base?.includes(pat)` for an optional base string: `false` when the
base is absent, substring containment otherwise. -/
def optIncludes (base : Option String) (pat : String) : Bool :=
  match base with
  | none => false
  | some s => charsContain s.data pat.data

/-- `_convertArgs(options, messages)`: option names mapped verbatim to wire
field names; `stop` is truncated to its first 4 entries when the configured
`apiBase` contains the Jan port marker `":1337"` (Jan does not truncate and
errors), else passed through unchanged. -/
def _convertArgs (apiBase : Option String) (options : CompletionOptions)
    (messages : List ChatMessage) : WirePayload :=
  { messages := messages.map _convertMessage
    model := options.model
    max_tokens := options.maxTokens
    temperature := options.temperature
    top_p := options.topP
    frequency_penalty := options.frequencyPenalty
    presence_penalty := options.presencePenalty
    stop := if optIncludes apiBase ":1337" then options.stop.map (List.take 4) else options.stop }

/-- The chat-path SSE delta object: `{role?, content?}`. -/
structure Delta where
  role : Option String
  content : Option String
deriving DecidableEq, Repr

/-- One element of an SSE event's `choices` array.  Legacy events carry
`text` (and possibly a per-choice `finish_reason`); chat events carry
`delta`. -/
structure SseChoice where
  text : Option String
  finish_reason : Option String
  delta : Option Delta
deriving DecidableEq, Repr

/-- A parsed SSE event as delivered by the external `streamSse` primitive:
`{choices?, finish_reason?}`.  The top-level `finish_reason` field is the one
the legacy streamer reads. -/
structure SseEvent where
  choices : Option (List SseChoice)
  finish_reason : Option String
deriving DecidableEq, Repr

/-- JS optional chain `value.choices?.[0]`. -/
def firstChoice (v : SseEvent) : Option SseChoice :=
  v.choices.bind List.head?

/-- The event filter of `_legacystreamComplete`: for each event `value`,
`if (value.choices?.[0]?.text && value.finish_reason !== "eos") yield value.choices[0].text`.
Truthiness of `text` means: present and non-empty; `finish_reason` is read at
the top level of the event. -/
def legacyEmits (events : List SseEvent) : List String :=
  events.filterMap fun v =>
    match (firstChoice v).bind SseChoice.text with
    | none => none
    | some t => if t != "" && v.finish_reason != some "eos" then some t else none

/-- The event filter of the chat path of `_streamChat`: for each event,
`if (value.choices?.[0]?.delta?.content) yield value.choices[0].delta`. -/
def chatEmits (events : List SseEvent) : List Delta :=
  events.filterMap fun v =>
    match (firstChoice v).bind SseChoice.delta with
    | none => none
    | some d => match d.content with
      | none => none
      | some c => if c != "" then some d else none

/-- NON_CHAT_MODELS: models that must use the legacy completion endpoint. -/
def NON_CHAT_MODELS : List String :=
  ["text-davinci-002", "text-davinci-003", "code-davinci-002", "text-ada-001",
   "text-babbage-001", "text-curie-001", "davinci", "curie", "babbage", "ada"]

/-- CHAT_ONLY_MODELS: models that must use the chat endpoint. -/
def CHAT_ONLY_MODELS : List String :=
  ["gpt-3.5-turbo", "gpt-3.5-turbo-0613", "gpt-3.5-turbo-16k", "gpt-4",
   "gpt-35-turbo-16k", "gpt-35-turbo-0613", "gpt-35-turbo", "gpt-4-32k",
   "gpt-4-turbo-preview", "gpt-4-vision", "gpt-4-0125-preview",
   "gpt-4-1106-preview"]

/-- Modelled from the spec: `stripImages` (imported from
`src/core/llm/countTokens`, a file not present under `src/`) collapses a
message content to text by stripping any image parts; string content passes
through, and the texts of the remaining text parts form the result. -/
def stripImages : MessageContent → String
  | .str s => s
  | .parts ps =>
      String.intercalate "\n" (ps.filterMap fun p => if p.type == "text" then p.text else none)

/-- The legacy-path prompt expression of `_streamChat`:
`stripImages(messages[messages.length - 1]?.content || "")`.  An absent last
message gives `undefined`, and `|| ""` replaces the falsy values (`undefined`
and the empty string, which `||` maps to the equal value `""`) by `""`. -/
def legacyPrompt (messages : List ChatMessage) : String :=
  stripImages ((messages.getLast?.map ChatMessage.content).getD (.str ""))

/-- The routing condition of `_streamChat`:
`!CHAT_ONLY_MODELS.includes(options.model) && (NON_CHAT_MODELS.includes(options.model) || this.useLegacyCompletionsEndpoint)`. -/
def takesLegacyPath (useLegacyCompletionsEndpoint : Bool) (model : String) : Bool :=
  !(CHAT_ONLY_MODELS.contains model) &&
    (NON_CHAT_MODELS.contains model || useLegacyCompletionsEndpoint)

/-- The message fix-up of the chat path, applied to the converted payload:
`body.messages.map((m) => ({...m, content: m.content === "" ? " " : m.content}))`.
The strict equality `=== ""` can only hold for string content. -/
def fixupEmpty (m : WireMessage) : WireMessage :=
  { m with content := if m.content = .str "" then .str " " else m.content }

/-- The chat-path request body of `_streamChat` (minus the constant
`stream: true` flag): `_convertArgs` output with the empty-content fix-up
mapped over its messages. -/
def chatBody (apiBase : Option String) (options : CompletionOptions)
    (messages : List ChatMessage) : WirePayload :=
  let body := _convertArgs apiBase options messages
  { body with messages := body.messages.map fixupEmpty }

/-- The observable behaviour of one `_streamChat` invocation: which path was
taken, the prompt handed to `_legacystreamComplete` (legacy path), the
request body transmitted (chat path), and the chunks yielded to the caller. -/
structure StreamChatCall where
  legacy : Bool
  prompt : Option String
  body : Option WirePayload
  chunks : List Delta
deriving DecidableEq, Repr

/-- `_streamChat(messages, options)` as a function of the configuration, the
inputs, and the SSE events of the response.  On the legacy path each text
fragment is wrapped as `{role: "assistant", content}`; on the chat path the
emitted deltas are yielded as they are. -/
def _streamChat (useLegacyCompletionsEndpoint : Bool) (apiBase : Option String)
    (messages : List ChatMessage) (options : CompletionOptions)
    (events : List SseEvent) : StreamChatCall :=
  if takesLegacyPath useLegacyCompletionsEndpoint options.model then
    { legacy := true
      prompt := some (legacyPrompt messages)
      body := none
      chunks := (legacyEmits events).map fun content =>
        { role := some "assistant", content := some content } }
  else
    { legacy := false
      prompt := none
      body := some (chatBody apiBase options messages)
      chunks := chatEmits events }

/-- JS string coercion of a possibly-absent value, as `+=` applies it:
an absent value appends the text `"undefined"`. -/
def jsString : Option String → String
  | some s => s
  | none => "undefined"

/-- `_complete(prompt, options)`: stream `_streamChat` on the single user
message `{role: "user", content: prompt}` and accumulate
`completion += chunk.content` from the empty string. -/
def _complete (useLegacyCompletionsEndpoint : Bool) (apiBase : Option String)
    (prompt : String) (options : CompletionOptions)
    (events : List SseEvent) : String :=
  (_streamChat useLegacyCompletionsEndpoint apiBase
      [{ role := "user", content := .str prompt }] options events).chunks.foldl
    (fun completion chunk => completion ++ jsString chunk.content) ""

/-- The characters of a URL string up to and including its last `/`
(everything after the last slash — the last path segment — removed). -/
def upToLastSlash (cs : List Char) : List Char :=
  ((cs.reverse.dropWhile fun c => c ≠ '/')).reverse

/-- WHATWG `new URL(rel, base)` for the shapes this adapter produces: `rel`
is a relative path reference (possibly with a query), `base` an absolute
http(s) URL with an explicit path, so resolution replaces the base's last
path segment by `rel`.  An absent or empty base makes the constructor throw
(`TypeError: Invalid URL`). -/
def newURL (rel : String) (base : Option String) : Except String String :=
  match base with
  | none => .error "Invalid URL"
  | some b => if b = "" then .error "Invalid URL" else .ok (String.mk (upToLastSlash b.data) ++ rel)

/-- JS template-literal rendering of a possibly-absent configuration string
(`${this.engine}` prints `undefined` when unset). -/
def templateString : Option String → String
  | some s => s
  | none => "undefined"

/-- The configuration the endpoint resolver reads from the instance. -/
structure EndpointConfig where
  apiType : Option String
  apiBase : Option String
  engine : Option String
  apiVersion : Option String
deriving DecidableEq, Repr

deriving instance DecidableEq for Except

/-- The exact configuration-error message thrown by `_getEndpoint`. -/
def noApiBaseMsg : String :=
  "No API base URL provided. Please set the \x27apiBase\x27 option in config.json"

/-- JS falsiness of `this.apiBase` as tested by `if (!this.apiBase)`:
absent or the empty string. -/
def falsyStr : Option String → Bool
  | none => true
  | some s => s == ""

/-- `_getEndpoint(endpoint)`: in azure mode, resolve
`openai/deployments/{engine}/{endpoint}?api-version={apiVersion}` against
`apiBase`; otherwise throw the configuration error when `apiBase` is falsy
(absent or empty) and resolve `endpoint` against `apiBase` when it is not. -/
def _getEndpoint (cfg : EndpointConfig) (endpoint : String) : Except String String :=
  if cfg.apiType = some "azure" then
    newURL ("openai/deployments/" ++ templateString cfg.engine ++ "/" ++ endpoint ++
      "?api-version=" ++ templateString cfg.apiVersion) cfg.apiBase
  else if falsyStr cfg.apiBase then .error noApiBaseMsg
  else newURL endpoint cfg.apiBase

/-- A concrete `CompletionOptions` with a given model and everything else
unset, for witnesses. -/
def optionsFor (model : String) : CompletionOptions :=
  { model := model, maxTokens := none, temperature := none, topP := none
    frequencyPenalty := none, presencePenalty := none, stop := none }

/-- A JSON string literal (the strings at play need no escaping). -/
def jsonStr (s : String) : String := "\"" ++ s ++ "\""

/-- `JSON.stringify` of an original content part; `undefined` properties are
omitted, as `JSON.stringify` does. -/
def jsonOfPart (p : ContentPart) : String :=
  "\x7b\"type\":" ++ jsonStr p.type ++
    (match p.text with | some t => ",\"text\":" ++ jsonStr t | none => "") ++
    (match p.imageUrl with
     | some i => ",\"imageUrl\":\x7b\"url\":" ++ jsonStr i.url ++ "\x7d"
     | none => "") ++
    "\x7d"

/-- `JSON.stringify` of an original message content. -/
def jsonOfContent : MessageContent → String
  | .str s => jsonStr s
  | .parts ps => "[" ++ String.intercalate "," (ps.map jsonOfPart) ++ "]"

/-- `JSON.stringify` of a wire-side `image_url` object (property order as
produced by the object spread: `url` first when present, then `detail`). -/
def jsonOfWireImageUrl (i : WireImageUrl) : String :=
  "\x7b" ++
    String.intercalate ","
      ((match i.url with | some u => ["\"url\":" ++ jsonStr u] | none => []) ++
       (match i.detail with | some d => ["\"detail\":" ++ jsonStr d] | none => [])) ++
    "\x7d"

/-- `JSON.stringify` of a wire-side content part. -/
def jsonOfWirePart (p : WirePart) : String :=
  "\x7b\"type\":" ++ jsonStr p.type ++
    (match p.text with | some t => ",\"text\":" ++ jsonStr t | none => "") ++
    (match p.image_url with
     | some i => ",\"image_url\":" ++ jsonOfWireImageUrl i
     | none => "") ++
    "\x7d"

/-- `JSON.stringify` of a wire-side message content. -/
def jsonOfWireContent : WireContent → String
  | .str s => jsonStr s
  | .parts ps => "[" ++ String.intercalate "," (ps.map jsonOfWirePart) ++ "]"

/-- Concatenation of a list of strings, in order. -/
def concatStrings : List String → String
  | [] => ""
  | s :: rest => s ++ concatStrings rest

/-- C1: the dispatcher `_streamChat` routes by priority: a model in
CHAT_ONLY_MODELS always takes the chat path, regardless of the legacy flag;
otherwise a model in NON_CHAT_MODELS, or a set legacy flag, takes the legacy
completion path; otherwise the chat path. -/
theorem C1_routing (useLegacy : Bool) (apiBase : Option String)
    (messages : List ChatMessage) (options : CompletionOptions)
    (events : List SseEvent) :
    (options.model ∈ CHAT_ONLY_MODELS →
      (_streamChat useLegacy apiBase messages options events).legacy = false) ∧
    (options.model ∉ CHAT_ONLY_MODELS →
      (options.model ∈ NON_CHAT_MODELS ∨ useLegacy = true) →
      (_streamChat useLegacy apiBase messages options events).legacy = true) ∧
    (options.model ∉ CHAT_ONLY_MODELS → options.model ∉ NON_CHAT_MODELS →
      useLegacy = false →
      (_streamChat useLegacy apiBase messages options events).legacy = false) := by
  refine ⟨fun h => ?_, fun h h2 => ?_, fun h h2 h3 => ?_⟩
  · simp [_streamChat, takesLegacyPath, h]
  · rcases h2 with h2 | h2 <;> simp [_streamChat, takesLegacyPath, h, h2]
  · simp [_streamChat, takesLegacyPath, h, h2, h3]

/-- C1 witness: `gpt-4` is chat-only and routes to chat even with the legacy
flag set; `davinci` is non-chat and routes legacy even with the flag unset;
an unlisted model with the flag unset routes to chat. -/
theorem C1_routing_witness :
    (_streamChat true none [] (optionsFor "gpt-4") []).legacy = false ∧
    (_streamChat false none [] (optionsFor "davinci") []).legacy = true ∧
    (_streamChat false none [] (optionsFor "somefuturemodel") []).legacy = false :=
  ⟨(C1_routing true none [] (optionsFor "gpt-4") []).1 (by decide),
   (C1_routing false none [] (optionsFor "davinci") []).2.1 (by decide)
     (Or.inl (by decide)),
   (C1_routing false none [] (optionsFor "somefuturemodel") []).2.2 (by decide)
     (by decide) rfl⟩

/-- C3: `_convertArgs` truncates a present stop list to its first 4 entries
exactly when the configured API base contains the marker `":1337"`, and
passes it through unchanged otherwise. -/
theorem C3_stop_truncation (apiBase : Option String)
    (options : CompletionOptions) (messages : List ChatMessage)
    (l : List String) (hstop : options.stop = some l) :
    (optIncludes apiBase ":1337" = true →
      (_convertArgs apiBase options messages).stop = some (l.take 4)) ∧
    (optIncludes apiBase ":1337" = false →
      (_convertArgs apiBase options messages).stop = some l) := by
  constructor <;> intro h <;> simp [_convertArgs, h, hstop]

/-- C3 witness: a 6-entry stop list becomes its first 4 entries under a Jan
base URL and is transmitted unchanged under the default OpenAI base URL. -/
theorem C3_stop_truncation_witness :
    (_convertArgs (some "http://localhost:1337/v1/")
        { optionsFor "m" with stop := some ["a", "b", "c", "d", "e", "f"] }
        []).stop = some ["a", "b", "c", "d"] ∧
    (_convertArgs (some "https://api.openai.com/v1/")
        { optionsFor "m" with stop := some ["a", "b", "c", "d", "e", "f"] }
        []).stop = some ["a", "b", "c", "d", "e", "f"] :=
  ⟨(C3_stop_truncation (some "http://localhost:1337/v1/")
      { optionsFor "m" with stop := some ["a", "b", "c", "d", "e", "f"] }
      [] ["a", "b", "c", "d", "e", "f"] rfl).1 (by decide),
   (C3_stop_truncation (some "https://api.openai.com/v1/")
      { optionsFor "m" with stop := some ["a", "b", "c", "d", "e", "f"] }
      [] ["a", "b", "c", "d", "e", "f"] rfl).2 (by decide)⟩

/-- C2 counterexample: the legacy streamer reads `finish_reason` at the top
level of the event, not on the first choice, so the event
`{choices: [{text: "x", finish_reason: "eos"}]}` named by the claim does
emit the chunk `"x"` instead of being skipped. -/
theorem C2_counterexample :
    legacyEmits
        [{ choices := some [{ text := some "x", finish_reason := some "eos", delta := none }],
           finish_reason := none }] = ["x"] ∧
    legacyEmits
        [{ choices := some [{ text := some "x", finish_reason := some "eos", delta := none }],
           finish_reason := none }] ≠ [] := by
  constructor <;> decide

/-- C2 (amended): for every parsed SSE event, the legacy streamer emits the
event's first-choice text iff that text is present and non-empty and the
event's top-level `finish_reason` is not the sentinel `"eos"`; in particular
`{choices: [{text: "y", finish_reason: null}]}` yields `"y"`, an event whose
top-level `finish_reason` is `"eos"` yields nothing, and events with no
usable text are skipped without error. -/
theorem C2_legacy_skip_rule :
    (∀ (v : SseEvent) (rest : List SseEvent),
      legacyEmits (v :: rest) =
        (match (firstChoice v).bind SseChoice.text with
         | some t => if t ≠ "" ∧ v.finish_reason ≠ some "eos" then [t] else []
         | none => []) ++ legacyEmits rest) ∧
    legacyEmits
        [{ choices := some [{ text := some "y", finish_reason := none, delta := none }],
           finish_reason := none }] = ["y"] ∧
    legacyEmits
        [{ choices := some [{ text := some "x", finish_reason := none, delta := none }],
           finish_reason := some "eos" }] = [] ∧
    legacyEmits [{ choices := none, finish_reason := none },
        { choices := some [], finish_reason := none },
        { choices := some [{ text := none, finish_reason := none, delta := none }],
          finish_reason := none }] = [] := by
  refine ⟨fun v rest => ?_, by decide, by decide, by decide⟩
  cases h : (firstChoice v).bind SseChoice.text with
  | none => simp [legacyEmits, List.filterMap_cons, h]
  | some t =>
      by_cases ht : t = "" <;> by_cases hf : v.finish_reason = some "eos" <;>
        simp [legacyEmits, List.filterMap_cons, h, ht, hf]

/-- C8: on the chat path, an SSE event's first-choice delta is emitted iff
the delta exists and carries non-empty content; events with missing choices,
missing delta, or empty delta content are skipped without error. -/
theorem C8_chat_skip_rule :
    (∀ (v : SseEvent) (rest : List SseEvent),
      chatEmits (v :: rest) =
        (match (firstChoice v).bind SseChoice.delta with
         | some d => if d.content ≠ none ∧ d.content ≠ some "" then [d] else []
         | none => []) ++ chatEmits rest) ∧
    chatEmits
        [{ choices := some
             [{ text := none, finish_reason := none,
                delta := some { role := some "assistant", content := some "hi" } }],
           finish_reason := none }] =
      [{ role := some "assistant", content := some "hi" }] ∧
    chatEmits [{ choices := none, finish_reason := none },
        { choices := some [], finish_reason := none },
        { choices := some [{ text := none, finish_reason := none, delta := none }],
          finish_reason := none },
        { choices := some
            [{ text := none, finish_reason := none,
               delta := some { role := none, content := some "" } }],
          finish_reason := none },
        { choices := some
            [{ text := none, finish_reason := none,
               delta := some { role := none, content := none } }],
          finish_reason := none }] = [] := by
  refine ⟨fun v rest => ?_, by decide, by decide⟩
  cases h : (firstChoice v).bind SseChoice.delta with
  | none => simp [chatEmits, List.filterMap_cons, h]
  | some d =>
      cases hc : d.content with
      | none => simp [chatEmits, List.filterMap_cons, h, hc]
      | some c => by_cases hce : c = "" <;> simp [chatEmits, List.filterMap_cons, h, hc, hce]

/-- C5: on the legacy path the prompt handed to `_legacystreamComplete` is
the last message's content with image parts stripped, the empty string when
the message sequence is empty, and the multi-part content
`[{type: "text", text: "a"}, {type: "imageUrl", ...}]` yields exactly
`"a"`. -/
theorem C5_legacy_prompt (useLegacy : Bool) (apiBase : Option String)
    (messages : List ChatMessage) (options : CompletionOptions)
    (events : List SseEvent)
    (h : takesLegacyPath useLegacy options.model = true) :
    (_streamChat useLegacy apiBase messages options events).prompt =
      some (legacyPrompt messages) ∧
    (∀ (ms : List ChatMessage) (m : ChatMessage),
      legacyPrompt (ms ++ [m]) = stripImages m.content) ∧
    legacyPrompt [] = "" ∧
    stripImages (.parts
        [{ type := "text", text := some "a", imageUrl := none },
         { type := "imageUrl", text := none, imageUrl := some { url := "http://img" } }]) =
      "a" := by
  refine ⟨by simp [_streamChat, h], fun ms m => ?_, by decide, by decide⟩
  simp [legacyPrompt, List.getLast?_concat]

/-- C5 witness: with the non-chat model `davinci`, a last message holding a
text part `"a"` and an image part produces the legacy prompt `"a"`. -/
theorem C5_legacy_prompt_witness :
    (_streamChat false none
        [{ role := "user",
           content := .parts
             [{ type := "text", text := some "a", imageUrl := none },
              { type := "imageUrl", text := none, imageUrl := some { url := "http://img" } }] }]
        (optionsFor "davinci") []).prompt = some "a" := by
  rw [(C5_legacy_prompt false none
      [{ role := "user",
         content := .parts
           [{ type := "text", text := some "a", imageUrl := none },
            { type := "imageUrl", text := none, imageUrl := some { url := "http://img" } }] }]
      (optionsFor "davinci") [] (by decide)).1]
  decide

/-- C9: every chunk yielded on the legacy path is a message whose role is
exactly `"assistant"` and whose content is the corresponding text fragment
emitted by the legacy streamer, in order. -/
theorem C9_legacy_chunk_shape (useLegacy : Bool) (apiBase : Option String)
    (messages : List ChatMessage) (options : CompletionOptions)
    (events : List SseEvent)
    (h : takesLegacyPath useLegacy options.model = true) :
    (_streamChat useLegacy apiBase messages options events).chunks =
      (legacyEmits events).map fun t =>
        { role := some "assistant", content := some t } := by
  simp [_streamChat, h]

/-- C9 witness: the non-chat model `davinci` over one event with text
`"hi"` yields exactly the chunk `{role: "assistant", content: "hi"}`. -/
theorem C9_legacy_chunk_shape_witness :
    (_streamChat false none [] (optionsFor "davinci")
        [{ choices := some [{ text := some "hi", finish_reason := none, delta := none }],
           finish_reason := none }]).chunks =
      [{ role := some "assistant", content := some "hi" }] := by
  rw [C9_legacy_chunk_shape false none [] (optionsFor "davinci")
      [{ choices := some [{ text := some "hi", finish_reason := none, delta := none }],
         finish_reason := none }] (by decide)]
  decide

/-- C10: `_convertMessage` returns string-content messages unchanged, and
rewrites every part of a multi-part content — text parts included — to carry
an `image_url` object whose `detail` is `"low"`. -/
theorem C10_convert_message :
    (∀ (m : ChatMessage) (s : String), m.content = .str s →
      _convertMessage m = { role := m.role, content := .str s }) ∧
    (∀ (m : ChatMessage) (ps : List ContentPart), m.content = .parts ps →
      ∃ wps, (_convertMessage m).content = .parts wps ∧ wps.length = ps.length ∧
        ∀ wp ∈ wps, ∃ u, wp.image_url = some { url := u, detail := some "low" }) := by
  constructor
  · intro m s h
    simp [_convertMessage, h]
  · intro m ps h
    refine ⟨ps.map convertPart, by simp [_convertMessage, h], by simp, ?_⟩
    intro wp hwp
    obtain ⟨p, _, rfl⟩ := List.mem_map.1 hwp
    exact ⟨p.imageUrl.map ImageUrl.url, rfl⟩

/-- C10 witness: a string-content message passes through unchanged, and a
single text part acquires `image_url` with `detail: "low"`. -/
theorem C10_convert_message_witness :
    _convertMessage { role := "user", content := .str "hi" } =
      { role := "user", content := .str "hi" } ∧
    (∃ wps,
      (_convertMessage
          { role := "user",
            content := .parts [{ type := "text", text := some "a", imageUrl := none }] }).content =
        .parts wps ∧
      wps.length = 1 ∧
      ∀ wp ∈ wps, ∃ u, wp.image_url = some { url := u, detail := some "low" }) :=
  ⟨C10_convert_message.1 { role := "user", content := .str "hi" } "hi" rfl,
   C10_convert_message.2
     { role := "user",
       content := .parts [{ type := "text", text := some "a", imageUrl := none }] }
     [{ type := "text", text := some "a", imageUrl := none }] rfl⟩

/-- Appending a trailing slash leaves nothing after the last slash. -/
theorem upToLastSlash_concat_slash (l : List Char) :
    upToLastSlash (l ++ ['/']) = l ++ ['/'] := by
  simp [upToLastSlash, List.dropWhile_cons]

/-- A string ending in `/` is a non-empty string. -/
theorem slash_ended_ne_empty (b0 : String) : b0 ++ "/" ≠ "" := by
  intro h
  have hd := congrArg String.data h
  rw [String.data_append b0 "/"] at hd
  simp at hd

/-- Resolving a relative reference against a base ending in `/` concatenates
the two. -/
theorem newURL_slash_base (b0 rel : String) :
    newURL rel (some (b0 ++ "/")) = .ok ((b0 ++ "/") ++ rel) := by
  have hne := slash_ended_ne_empty b0
  have hup : upToLastSlash (b0 ++ "/").data = (b0 ++ "/").data := by
    rw [String.data_append b0 "/"]
    exact upToLastSlash_concat_slash b0.data
  show (if b0 ++ "/" = "" then Except.error "Invalid URL"
    else Except.ok (String.mk (upToLastSlash (b0 ++ "/").data) ++ rel)) = _
  rw [if_neg hne, hup]

/-- C6 counterexample: in standard mode with a base URL not ending in a
slash, `new URL` relative resolution replaces the base's last path segment,
so the resolver does not return `base + endpoint`: for base
`https://x/v1` and endpoint `models` it returns `https://x/models`, not
`https://x/v1models`. -/
theorem C6_counterexample :
    _getEndpoint
        { apiType := none, apiBase := some "https://x/v1", engine := none,
          apiVersion := none } "models" = .ok "https://x/models" ∧
    _getEndpoint
        { apiType := none, apiBase := some "https://x/v1", engine := none,
          apiVersion := none } "models" ≠
      .ok ("https://x/v1" ++ "models") := by
  constructor <;> decide

/-- C6 (amended): when the base URL ends in `/` (as the shipped default and
the claim's examples do), the resolver returns base + path: in azure mode
base + `openai/deployments/{engine}/{endpoint}?api-version={version}`, and
otherwise base + endpoint (in general the endpoint is resolved against the
base as a relative URL, replacing the base's last path segment); the
configuration error naming the missing API base URL is thrown if and only if
the API type is not azure and the base is absent (or empty, which the code's
falsiness test treats the same), before any network call. -/
theorem C6_get_endpoint (cfg : EndpointConfig) (endpoint b0 : String) :
    (cfg.apiType = some "azure" → cfg.apiBase = some (b0 ++ "/") →
      _getEndpoint cfg endpoint =
        .ok ((b0 ++ "/") ++ ("openai/deployments/" ++ templateString cfg.engine ++ "/" ++
          endpoint ++ "?api-version=" ++ templateString cfg.apiVersion))) ∧
    (cfg.apiType ≠ some "azure" → cfg.apiBase = some (b0 ++ "/") →
      _getEndpoint cfg endpoint = .ok ((b0 ++ "/") ++ endpoint)) ∧
    (_getEndpoint cfg endpoint = .error noApiBaseMsg ↔
      cfg.apiType ≠ some "azure" ∧ falsyStr cfg.apiBase = true) := by
  refine ⟨fun ha hb => ?_, fun ha hb => ?_, ?_⟩
  · rw [_getEndpoint, if_pos ha, hb, newURL_slash_base]
  · have hne := slash_ended_ne_empty b0
    rw [_getEndpoint, if_neg ha, hb]
    have : falsyStr (some (b0 ++ "/")) = false := by
      simp [falsyStr, hne]
    rw [this, if_neg (by simp), newURL_slash_base]
  · by_cases ha : cfg.apiType = some "azure"
    · rw [_getEndpoint, if_pos ha]
      constructor
      · intro h
        exfalso
        cases hb : cfg.apiBase with
        | none => rw [hb] at h; exact absurd (Except.error.inj h) (by decide)
        | some b =>
            rw [hb] at h
            by_cases hbe : b = ""
            · rw [newURL, if_pos hbe] at h
              exact absurd (Except.error.inj h) (by decide)
            · rw [newURL, if_neg hbe] at h
              exact Except.noConfusion h
      · rintro ⟨h, -⟩
        exact absurd ha h
    · rw [_getEndpoint, if_neg ha]
      by_cases hb : falsyStr cfg.apiBase
      · rw [if_pos hb]
        simp [ha, hb]
      · rw [if_neg hb]
        constructor
        · intro h
          exfalso
          cases hbase : cfg.apiBase with
          | none => rw [hbase] at hb; exact hb rfl
          | some b =>
              rw [hbase] at h hb
              have hbe : ¬b = "" := fun he => hb (by simp [falsyStr, he])
              rw [newURL, if_neg hbe] at h
              exact Except.noConfusion h
        · rintro ⟨-, h⟩
          exact absurd h (by simpa using hb)

/-- C6 witness: the claim's azure example resolves to
`https://x/openai/deployments/gpt4dep/chat/completions?api-version=2023-05-15`,
and a standard-mode configuration with no base throws exactly the
configuration error. -/
theorem C6_get_endpoint_witness :
    _getEndpoint
        { apiType := some "azure", apiBase := some "https://x/",
          engine := some "gpt4dep", apiVersion := some "2023-05-15" }
        "chat/completions" =
      .ok "https://x/openai/deployments/gpt4dep/chat/completions?api-version=2023-05-15" ∧
    _getEndpoint
        { apiType := none, apiBase := none, engine := none, apiVersion := none }
        "models" = .error noApiBaseMsg := by
  constructor
  · rw [(C6_get_endpoint
        { apiType := some "azure", apiBase := some "https://x/",
          engine := some "gpt4dep", apiVersion := some "2023-05-15" }
        "chat/completions" "https://x").1 rfl (by decide)]
    decide
  · exact (C6_get_endpoint
        { apiType := none, apiBase := none, engine := none, apiVersion := none }
        "models" "").2.2.mpr ⟨by decide, by decide⟩

/-- C4 counterexample: a multi-part message is not transmitted with its
content unchanged — the transmitted JSON of the single text-part content
`[{type: "text", text: "a"}]` acquires an `image_url` annotation and so
differs from the JSON of the caller's content. -/
theorem C4_counterexample :
    ((chatBody none (optionsFor "gpt-4")
        [{ role := "user",
           content := .parts [{ type := "text", text := some "a", imageUrl := none }] }]).messages.map
      fun wm => jsonOfWireContent wm.content) =
      ["[\x7b\"type\":\"text\",\"text\":\"a\",\"image_url\":\x7b\"detail\":\"low\"\x7d\x7d]"] ∧
    ((chatBody none (optionsFor "gpt-4")
        [{ role := "user",
           content := .parts [{ type := "text", text := some "a", imageUrl := none }] }]).messages.map
      fun wm => jsonOfWireContent wm.content) ≠
      [jsonOfContent (.parts [{ type := "text", text := some "a", imageUrl := none }])] := by
  constructor <;> decide

/-- The per-message effect of `_convertMessage` followed by the chat path's
empty-content fix-up. -/
theorem fixupEmpty_convertMessage (m : ChatMessage) :
    fixupEmpty (_convertMessage m) =
      { role := m.role,
        content := match m.content with
          | .str "" => .str " "
          | .str s => .str s
          | .parts ps => .parts (ps.map convertPart) } := by
  obtain ⟨r, c⟩ := m
  cases c with
  | str s => by_cases hs : s = "" <;> simp [_convertMessage, fixupEmpty, hs]
  | parts ps => simp [_convertMessage, fixupEmpty]

/-- C4 (amended): in the chat-path request body, a message whose content is
the empty string is transmitted with content a single space, every other
string-content message is transmitted with its string unchanged, and a
multi-part content is transmitted in the converter's wire form (each part
annotated with an `image_url` carrying `detail: "low"`); the payload is
built from fresh records, the caller's messages being read only. -/
theorem C4_empty_content_substitution (apiBase : Option String)
    (options : CompletionOptions) (messages : List ChatMessage) :
    (chatBody apiBase options messages).messages =
      messages.map fun m =>
        { role := m.role,
          content := match m.content with
            | .str "" => .str " "
            | .str s => .str s
            | .parts ps => .parts (ps.map convertPart) } := by
  induction messages with
  | nil => rfl
  | cons m ms ih =>
      simp only [chatBody, _convertArgs, List.map_cons] at ih ⊢
      rw [fixupEmpty_convertMessage m, ih]

/-- Left-folding `++` over a list is the accumulator followed by the
concatenation of the list. -/
theorem foldl_append_concatStrings (f : Delta → String) (l : List Delta) (acc : String) :
    l.foldl (fun a c => a ++ f c) acc = acc ++ concatStrings (l.map f) := by
  induction l generalizing acc with
  | nil => simp [concatStrings]
  | cons c cs ih =>
      rw [List.foldl_cons, ih, List.map_cons, concatStrings,
        String.append_assoc acc (f c) (concatStrings (cs.map f))]

/-- C7: `_complete` returns the concatenation, in order, of the chunk
contents produced by `_streamChat` on the single user message carrying the
prompt; in particular over a stream whose chunks are `"a"`, `"b"`, `"c"` it
returns `"abc"`. -/
theorem C7_complete_concat :
    (∀ (useLegacy : Bool) (apiBase : Option String) (prompt : String)
        (options : CompletionOptions) (events : List SseEvent),
      _complete useLegacy apiBase prompt options events =
        concatStrings
          ((_streamChat useLegacy apiBase [{ role := "user", content := .str prompt }]
              options events).chunks.map fun chunk => jsString chunk.content)) ∧
    _complete false none "hi" (optionsFor "gpt-4")
        (["a", "b", "c"].map fun t =>
          { choices := some
              [{ text := none, finish_reason := none,
                 delta := some { role := some "assistant", content := some t } }],
            finish_reason := none }) = "abc" := by
  constructor
  · intro useLegacy apiBase prompt options events
    rw [_complete, foldl_append_concatStrings]
    exact String.empty_append _
  · decide

end OpenAIAdapter
